import Mathlib

/-! Verification of the Loki datasource plugin (LokiDatasource).

Shallow embedding of the datasource class: query preparation, batch query
execution, stream merge, streaming (tail) execution, query-editing helpers
and the health check.  Pure functions become Lean functions; asynchrony is
modelled by passing the per-target transport responses explicitly
(`Except` for a rejected promise); the current clock is an explicit
argument.  External collaborators injected into the class (the template
interpolation service and the selector-mutation helper) are fields of the
`LokiDatasource` structure.
-/

/-- One log entry of a backend stream: timestamp string and line text. -/
structure LogEntry where
  ts : String
  line : String
deriving Repr, DecidableEq

/-- A backend-returned log stream: a label set plus ordered entries.
The `search` field is the regex term tagged onto the stream by `query`. -/
structure LogsStream where
  labels : List (String × String)
  entries : List LogEntry
  search : String := ""
deriving Repr, DecidableEq

/-- One row of the unified log model: timestamp, line, originating labels
and the search (regex) term that produced it. -/
structure LogRow where
  ts : String
  line : String
  labels : List (String × String)
  search : String
deriving Repr, DecidableEq

/-- The unified output model: capped, time-ordered rows plus an optional
derived numeric series (bucketed line counts). -/
structure LogsModel where
  rows : List LogRow
  series : List (ℚ × Nat) := []
deriving Repr, DecidableEq

/-- Parsed query: label-selector portion (`query`) and line-filter regular
expression (`regexp`). -/
structure ParsedQuery where
  query : String
  regexp : String
deriving Repr, DecidableEq

/-- A query target as authored in the host UI. -/
structure LokiQuery where
  refId : String
  expr : String
  hide : Bool := false
  format : Option String := none
deriving Repr, DecidableEq

/-- The request time range; values are clock values in milliseconds
(the result of `valueOf()` on the host's moment-like objects). -/
structure TimeRange where
  fromTime : ℚ
  toTime : ℚ
deriving Repr, DecidableEq

/-- The options bag handed to `query` / `stream`. -/
structure DataQueryOptions where
  targets : List LokiQuery
  range : TimeRange
  intervalMs : ℚ := 0
  streaming : Bool := false
deriving Repr, DecidableEq

/-- Wire-ready query parameters (`DEFAULT_QUERY_PARAMS` spread with the
parsed query, the time bounds and the limit override). -/
structure QueryParams where
  direction : String
  limit : Nat
  regexp : String
  query : String
  startTs : ℤ
  endTs : ℤ
deriving Repr, DecidableEq

/-- A query-editing action (`modifyQuery`'s second argument). -/
structure LokiAction where
  type : String
  key : String := ""
  value : String := ""
deriving Repr, DecidableEq

/-- The error body of a rejected transport request: either a structured
object with an optional `message` field, or a raw string body. -/
inductive ErrBody where
  | obj (message : Option String) (asString : String)
  | str (s : String)
deriving Repr, DecidableEq

/-- A rejected transport response as observed by `testDatasource`'s catch
handler.  `status = some 0` models a falsy numeric status. -/
structure ErrResponse where
  status : Option Nat := none
  statusText : Option String := none
  data : Option ErrBody := none
deriving Repr, DecidableEq

/-- The inner payload of the label endpoint's response. -/
structure LabelBody where
  values : Option (List String)
deriving Repr, DecidableEq

/-- A successful label endpoint response (`res.data` may be absent). -/
structure LabelResponse where
  data : Option LabelBody
deriving Repr, DecidableEq

/-- The `{status, message}` value returned by `testDatasource`. -/
structure TestResult where
  status : String
  message : String
deriving Repr, DecidableEq

/-- The body of one per-target response to `/api/prom/query`. -/
structure RespBody where
  streams : Option (List LogsStream)
deriving Repr, DecidableEq

/-- One per-target response: `data` may be absent (falsy). -/
structure QueryResult where
  data : Option RespBody
deriving Repr, DecidableEq

/-- The payload of a batch `query` response: either the raw combined
stream list or the derived numeric series. -/
inductive QueryData where
  | streams (xs : List LogsStream)
  | series (s : List (ℚ × Nat))
deriving Repr, DecidableEq

/-- The resolved value of a batch query, `data` wrapped. -/
structure DataQueryResponse where
  data : QueryData
deriving Repr, DecidableEq

/-- The observable returned by `stream`: either the empty observable
(`from([])`) or the combine-latest pipeline over one socket per target. -/
inductive StreamOut where
  | emptyObs
  | sockets (params : List ParsedQuery)
deriving Repr, DecidableEq

/-- The datasource instance: configured max-lines cap plus the injected
external collaborators (template interpolation, selector mutation). -/
structure LokiDatasource where
  maxLines : Nat
  templateReplace : String → String
  addLabelToSelector : String → String → String → String

/-- Constant DEFAULT_MAX_LINES. -/
def DEFAULT_MAX_LINES : Nat := 1000

/-- Constant EXPLORE_POLLING_INTERVAL_MS (external constant sizing the streaming
look-back window; its exact value is irrelevant to the claims). -/
def EXPLORE_POLLING_INTERVAL_MS : ℚ := 5000

/-! Query parsing (spec-modelled).

`parseQuery` and `formatQuery` live in the plugin's `query_utils` module,
which is not part of the provided sources; they are modelled from the
spec's description. -/

/-- Scan a char list up to and including the first closing brace;
`none` when no closing brace occurs. -/
def spanUntilClose : List Char → Option (List Char × List Char)
  | [] => none
  | c :: cs =>
    if c = '}' then some ([c], cs)
    else
      match spanUntilClose cs with
      | some (sel, rest) => some (c :: sel, rest)
      | none => none

/-- Find the first complete `\x7b...\x7d` selector block: returns
`(before, selector, after)`, or `none` when no complete block exists. -/
def findSelector : List Char → Option (List Char × List Char × List Char)
  | [] => none
  | c :: cs =>
    if c = '{' then
      match spanUntilClose cs with
      | some (sel, rest) => some ([], c :: sel, rest)
      | none => none
    else
      match findSelector cs with
      | some (pre, sel, rest) => some (c :: pre, sel, rest)
      | none => none

/-- Drop trailing spaces. -/
def dropTrailingSpaces (l : List Char) : List Char :=
  ((l.reverse.dropWhile (· = ' ')).reverse)

/-- Trim spaces at both ends. -/
def trimChars (l : List Char) : List Char :=
  dropTrailingSpaces (l.dropWhile (· = ' '))

/-- Char-level parse: split an expression into its label-selector portion
and the remaining line-filter regexp (trimmed). -/
def parseQueryChars (l : List Char) : List Char × List Char :=
  match findSelector l with
  | some (pre, sel, rest) => (sel, trimChars (pre ++ rest))
  | none => ([], trimChars l)

/-- Char-level re-serialization of selector + regexp into one expression. -/
def formatQueryChars (sel search : List Char) : List Char :=
  trimChars (sel ++ ' ' :: search)

/-- Modelled from the spec: the external parser of `query_utils` (not
under the provided sources) — derives from an expression string "a
label-selector portion (`query`) and an optional line-filter regular
expression (`regexp`)". -/
def parseQuery (input : String) : ParsedQuery :=
  let p := parseQueryChars input.data
  { query := String.mk p.1, regexp := String.mk p.2 }

/-- Modelled from the spec: `query_utils.formatQuery` (not under the
provided sources) — "re-serializes selector + regex back into a single
expression string". -/
def formatQuery (selector search : String) : String :=
  String.mk (formatQueryChars selector.data search.data)

/-! Stream merge (spec-modelled aggregation utility). -/

/-- The raw rows of one stream, each carrying the stream's labels and
search term. -/
def streamRows (s : LogsStream) : List LogRow :=
  s.entries.map fun e => { ts := e.ts, line := e.line, labels := s.labels, search := s.search }

/-- Modelled from the spec: `mergeStreamsToLogs` of `result_transformer`
(not under the provided sources) — "row extraction/ordering/
cap-enforcement": flattens all streams into rows, orders them by
timestamp descending (the default `BACKWARD` direction) and caps the
result at `limit` rows. -/
def mergeStreamsToLogs (streams : List LogsStream) (limit : Nat) : LogsModel :=
  let rows := (streams.flatMap streamRows).mergeSort fun a b => b.ts ≤ a.ts
  { rows := rows.take limit }

/-- Modelled from the spec: `makeSeriesForLogs` of the host's log model
(an excluded external collaborator, black box) — "derives a
time-bucketed numeric series (bucketed line counts)" from the rows.  Its
exact bucketing is outside this repository; only its output type matters
to the claims. -/
def makeSeriesForLogs (rows : List LogRow) (intervalMs : ℚ) : List (ℚ × Nat) :=
  [(intervalMs, rows.length)]

/-! Datasource operations. -/

/-- Method getTime: converts a moment-like clock value (milliseconds) to the
backend timestamp `Math.ceil(date.valueOf() * 1e6)`.  The string branch
delegates to the external `dateMath.parse` (using `roundUp`) before the
same conversion; the conversion itself never uses `roundUp`. -/
def LokiDatasource.getTime (_ds : LokiDatasource) (date : ℚ) (_roundUp : Bool) : ℤ :=
  ⌈date * 1000000⌉

/-- Method prepareQueryTarget: interpolate, parse, and assemble the wire
parameters (`DEFAULT_QUERY_PARAMS` spread, then the parsed query, then
`start`/`end` and the `limit` override).  `now` is the current clock in
milliseconds (`moment()`), passed explicitly. -/
def LokiDatasource.prepareQueryTarget (ds : LokiDatasource) (now : ℚ)
    (target : LokiQuery) (options : DataQueryOptions) : QueryParams :=
  let streaming := options.streaming
  let interpolated := ds.templateReplace target.expr
  let liveStreamStart := now - EXPLORE_POLLING_INTERVAL_MS
  let liveStreamEnd := now
  let start := if streaming then ds.getTime liveStreamStart false
               else ds.getTime options.range.fromTime false
  let stop := if streaming then ds.getTime liveStreamEnd true
              else ds.getTime options.range.toTime true
  let p := parseQuery interpolated
  { direction := "BACKWARD", limit := ds.maxLines,
    regexp := p.regexp, query := p.query,
    startTs := start, endTs := stop }

/-- Method prepareStreamQueryTarget: interpolate and parse only. -/
def LokiDatasource.prepareStreamQueryTarget (ds : LokiDatasource)
    (target : LokiQuery) (_options : DataQueryOptions) : ParsedQuery :=
  parseQuery (ds.templateReplace target.expr)

/-- The eligibility filter `target => target.expr && !target.hide`
(an empty `expr` string is falsy). -/
def eligibleTarget (t : LokiQuery) : Bool :=
  t.expr ≠ "" && !t.hide

/-- The prepared per-target parameter list of `query`. -/
def LokiDatasource.queryTargets (ds : LokiDatasource) (now : ℚ)
    (options : DataQueryOptions) : List QueryParams :=
  (options.targets.filter eligibleTarget).map
    fun target => ds.prepareQueryTarget now target options

/-- The prepared per-target parameter list of `stream`. -/
def LokiDatasource.streamTargets (ds : LokiDatasource)
    (options : DataQueryOptions) : List ParsedQuery :=
  (options.targets.filter eligibleTarget).map
    fun target => ds.prepareStreamQueryTarget target options

/-- Semantics of Promise.all over the per-target requests: resolves with all results
in submission order, rejects as soon as any request rejects. -/
def promiseAll : List (Except ErrResponse α) → Except ErrResponse (List α)
  | [] => .ok []
  | .error e :: _ => .error e
  | .ok a :: rest => (promiseAll rest).map (a :: ·)

/-- The combined-stream loop of `query`: for each response index `i`, tag
every stream of `results[i]` with `queryTargets[i].regexp` and append.
A falsy `result.data` or missing `streams` contributes nothing. -/
def collectStreams : List QueryResult → List QueryParams → List LogsStream
  | [], _ => []
  | _ :: _, [] => []
  | r :: rs, q :: qs =>
    (match r.data with
     | none => []
     | some body => (body.streams.getD []).map fun s => { s with search := q.regexp })
    ++ collectStreams rs qs

/-- The streams of one response (`result.data` falsy → none;
`result.data.streams || []`). -/
def respStreams (r : QueryResult) : List LogsStream :=
  match r.data with
  | none => []
  | some body => body.streams.getD []

/-- The format flag of `options.targets[0]`. -/
def firstFormat (options : DataQueryOptions) : Option String :=
  options.targets.head?.bind fun t => t.format

/-- Method query: filter and prepare the targets; if none, resolve with
`{data: []}` without issuing any request; otherwise issue one request per
target, wait for all (`responses`, index-aligned with submission order),
combine the tagged streams, and branch the output shape on the first
target's `format`. -/
def LokiDatasource.query (ds : LokiDatasource) (now : ℚ)
    (options : DataQueryOptions)
    (responses : List (Except ErrResponse QueryResult)) :
    Except ErrResponse DataQueryResponse :=
  let queryTargets := ds.queryTargets now options
  if queryTargets.isEmpty then .ok { data := .streams [] }
  else
    match promiseAll responses with
    | .error e => .error e
    | .ok results =>
      let allStreams := collectStreams results queryTargets
      if firstFormat options = some "time_series" then
        let logs := mergeStreamsToLogs allStreams ds.maxLines
        .ok { data := .series (makeSeriesForLogs logs.rows options.intervalMs) }
      else
        .ok { data := .streams allStreams }

/-- Method stream: filter and prepare the targets; if none, return the empty
observable (`from([])`) without any network call; otherwise open one
socket per target and combine. -/
def LokiDatasource.stream (ds : LokiDatasource)
    (options : DataQueryOptions) : StreamOut :=
  let queryTargets := ds.streamTargets options
  if queryTargets.isEmpty then .emptyObs
  else .sockets queryTargets

/-- Method mergeStreams: delegate to the aggregation utility with the
configured cap, then derive the numeric series. -/
def LokiDatasource.mergeStreams (ds : LokiDatasource)
    (streams : List LogsStream) (intervalMs : ℚ) : LogsModel :=
  let logs := mergeStreamsToLogs streams ds.maxLines
  { logs with series := makeSeriesForLogs logs.rows intervalMs }

/-- Method modifyQuery: re-parse, apply the single supported mutation
(`ADD_FILTER`) to the selector, re-serialize, and return a fresh query
object with only `expr` replaced. -/
def LokiDatasource.modifyQuery (ds : LokiDatasource)
    (query : LokiQuery) (action : LokiAction) : LokiQuery :=
  let parsed := parseQuery query.expr
  let selector :=
    if action.type = "ADD_FILTER" then
      ds.addLabelToSelector parsed.query action.key action.value
    else parsed.query
  let expression := formatQuery selector parsed.regexp
  { query with expr := expression }

/-- Method getHighlighterExpression: the regex-filter portion of the query. -/
def getHighlighterExpression (query : LokiQuery) : String :=
  (parseQuery query.expr).regexp

/-- The then-branch condition of `testDatasource`:
`res && res.data && res.data.values && res.data.values.length > 0`. -/
def labelsFound (res : Option LabelResponse) : Bool :=
  match res with
  | none => false
  | some r =>
    match r.data with
    | none => false
    | some d =>
      match d.values with
      | none => false
      | some vs => vs.length > 0

/-- The statusText part of the catch-branch message (an empty string is
falsy and falls back to the default). -/
def errTextPart (err : ErrResponse) : String :=
  match err.statusText with
  | some t => if t = "" then "Cannot connect to Loki" else t
  | none => "Cannot connect to Loki"

/-- The numeric-status part of the catch-branch message (status `0` is
falsy and is skipped). -/
def errStatusPart (err : ErrResponse) : String :=
  match err.status with
  | some n => if n = 0 then "" else ". " ++ toString n
  | none => ""

/-- The error-body part of the catch-branch message: a structured body's
truthy `message` wins, otherwise the body's string form (a falsy body
contributes nothing). -/
def errDataPart (err : ErrResponse) : String :=
  match err.data with
  | none => ""
  | some (.obj msg asString) =>
    match msg with
    | some m => if m = "" then ". " ++ asString else ". " ++ m
    | none => ". " ++ asString
  | some (.str s) => if s = "" then "" else ". " ++ s

/-- Method testDatasource: request the label endpoint; on success branch on
whether any label values were received; on transport failure assemble the
best-effort error message. -/
def LokiDatasource.testDatasource (_ds : LokiDatasource)
    (response : Except ErrResponse (Option LabelResponse)) : TestResult :=
  match response with
  | .ok res =>
    if labelsFound res then
      { status := "success", message := "Data source connected and labels found." }
    else
      { status := "error",
        message := "Data source connected, but no labels received. Verify that Loki and Promtail is configured properly." }
  | .error err =>
    { status := "error",
      message := "Loki: " ++ errTextPart err ++ errStatusPart err ++ errDataPart err }

/-! Lemmas about the selector scanner. -/

theorem spanUntilClose_self_append {cs sel rest : List Char}
    (h : spanUntilClose cs = some (sel, rest)) (t : List Char) :
    spanUntilClose (sel ++ t) = some (sel, t) := by
  induction cs generalizing sel rest t with
  | nil => simp [spanUntilClose] at h
  | cons c cs ih =>
    rw [spanUntilClose] at h
    by_cases hc : c = '}'
    · rw [if_pos hc] at h
      injection h with h1
      rw [Prod.mk.injEq] at h1
      obtain ⟨rfl, rfl⟩ := h1
      simp [spanUntilClose, hc]
    · rw [if_neg hc] at h
      cases hcs : spanUntilClose cs with
      | none => rw [hcs] at h; exact absurd h (by simp)
      | some pr =>
        obtain ⟨s1, r1⟩ := pr
        rw [hcs] at h
        injection h with h1
        rw [Prod.mk.injEq] at h1
        obtain ⟨rfl, rfl⟩ := h1
        rw [List.cons_append, spanUntilClose, if_neg hc, ih hcs]

theorem spanUntilClose_shape {cs sel rest : List Char}
    (h : spanUntilClose cs = some (sel, rest)) :
    ∃ mid, sel = mid ++ ['}'] := by
  induction cs generalizing sel rest with
  | nil => simp [spanUntilClose] at h
  | cons c cs ih =>
    rw [spanUntilClose] at h
    by_cases hc : c = '}'
    · rw [if_pos hc] at h
      injection h with h1
      rw [Prod.mk.injEq] at h1
      obtain ⟨rfl, rfl⟩ := h1
      exact ⟨[], by simp [hc]⟩
    · rw [if_neg hc] at h
      cases hcs : spanUntilClose cs with
      | none => rw [hcs] at h; exact absurd h (by simp)
      | some pr =>
        obtain ⟨s1, r1⟩ := pr
        rw [hcs] at h
        injection h with h1
        rw [Prod.mk.injEq] at h1
        obtain ⟨rfl, rfl⟩ := h1
        obtain ⟨mid, hmid⟩ := ih hcs
        exact ⟨c :: mid, by simp [hmid]⟩

theorem spanUntilClose_append {cs sel rest : List Char}
    (h : spanUntilClose cs = some (sel, rest)) (u : List Char) :
    spanUntilClose (cs ++ u) = some (sel, rest ++ u) := by
  induction cs generalizing sel rest with
  | nil => simp [spanUntilClose] at h
  | cons c cs ih =>
    rw [spanUntilClose] at h
    by_cases hc : c = '}'
    · rw [if_pos hc] at h
      injection h with h1
      rw [Prod.mk.injEq] at h1
      obtain ⟨rfl, rfl⟩ := h1
      rw [List.cons_append, spanUntilClose, if_pos hc]
    · rw [if_neg hc] at h
      cases hcs : spanUntilClose cs with
      | none => rw [hcs] at h; exact absurd h (by simp)
      | some pr =>
        obtain ⟨s1, r1⟩ := pr
        rw [hcs] at h
        injection h with h1
        rw [Prod.mk.injEq] at h1
        obtain ⟨rfl, rfl⟩ := h1
        rw [List.cons_append, spanUntilClose, if_neg hc, ih hcs]

theorem findSelector_append {l pre sel rest : List Char}
    (h : findSelector l = some (pre, sel, rest)) (u : List Char) :
    findSelector (l ++ u) = some (pre, sel, rest ++ u) := by
  induction l generalizing pre sel rest with
  | nil => simp [findSelector] at h
  | cons c cs ih =>
    rw [findSelector] at h
    by_cases hc : c = '{'
    · rw [if_pos hc] at h
      cases hcs : spanUntilClose cs with
      | none => rw [hcs] at h; exact absurd h (by simp)
      | some pr =>
        obtain ⟨s1, r1⟩ := pr
        rw [hcs] at h
        injection h with h1
        rw [Prod.mk.injEq, Prod.mk.injEq] at h1
        obtain ⟨rfl, rfl, rfl⟩ := h1
        rw [List.cons_append, findSelector, if_pos hc, spanUntilClose_append hcs]
    · rw [if_neg hc] at h
      cases hcs : findSelector cs with
      | none => rw [hcs] at h; exact absurd h (by simp)
      | some pr =>
        obtain ⟨p1, s1, r1⟩ := pr
        rw [hcs] at h
        injection h with h1
        rw [Prod.mk.injEq, Prod.mk.injEq] at h1
        obtain ⟨rfl, rfl, rfl⟩ := h1
        rw [List.cons_append, findSelector, if_neg hc, ih hcs]

theorem findSelector_sel {l pre sel rest : List Char}
    (h : findSelector l = some (pre, sel, rest)) :
    ∃ s, sel = '{' :: s ∧ ∀ t, spanUntilClose (s ++ t) = some (s, t) := by
  induction l generalizing pre sel rest with
  | nil => simp [findSelector] at h
  | cons c cs ih =>
    rw [findSelector] at h
    by_cases hc : c = '{'
    · rw [if_pos hc] at h
      cases hcs : spanUntilClose cs with
      | none => rw [hcs] at h; exact absurd h (by simp)
      | some pr =>
        obtain ⟨s1, r1⟩ := pr
        rw [hcs] at h
        injection h with h1
        rw [Prod.mk.injEq, Prod.mk.injEq] at h1
        obtain ⟨rfl, rfl, rfl⟩ := h1
        exact ⟨s1, by rw [hc], fun t => spanUntilClose_self_append hcs t⟩
    · rw [if_neg hc] at h
      cases hcs : findSelector cs with
      | none => rw [hcs] at h; exact absurd h (by simp)
      | some pr =>
        obtain ⟨p1, s1, r1⟩ := pr
        rw [hcs] at h
        injection h with h1
        rw [Prod.mk.injEq, Prod.mk.injEq] at h1
        obtain ⟨rfl, rfl, rfl⟩ := h1
        exact ih hcs

/-! Lemmas about trimming. -/

theorem dropWhile_idem (p : Char → Bool) (l : List Char) :
    (l.dropWhile p).dropWhile p = l.dropWhile p := by
  induction l with
  | nil => simp
  | cons a l ih =>
    by_cases h : p a
    · simp [List.dropWhile_cons, h, ih]
    · simp [List.dropWhile_cons, h]

theorem dropWhile_eq_self_of_front {p : Char → Bool} {x l : List Char}
    (hpre : x <+: l) (hl : l.dropWhile p = l) : x.dropWhile p = x := by
  cases x with
  | nil => simp
  | cons a xs =>
    obtain ⟨t, ht⟩ := hpre
    have ha : p a = false := by
      by_contra hpa
      rw [Bool.not_eq_false] at hpa
      rw [← ht, List.cons_append, List.dropWhile_cons, if_pos hpa] at hl
      have hlen : ((xs ++ t).dropWhile p).length = (a :: (xs ++ t)).length :=
        congrArg List.length hl
      have hle := (List.dropWhile_sublist (l := xs ++ t) (p := p)).length_le
      rw [List.length_cons] at hlen
      omega
    simp [List.dropWhile_cons, ha]

theorem dropTrailingSpaces_idem (l : List Char) :
    dropTrailingSpaces (dropTrailingSpaces l) = dropTrailingSpaces l := by
  unfold dropTrailingSpaces
  rw [List.reverse_reverse, dropWhile_idem]

theorem dropTrailingSpaces_front (l : List Char) : dropTrailingSpaces l <+: l := by
  unfold dropTrailingSpaces
  have h : l.reverse.dropWhile (· = ' ') <:+ l.reverse := List.dropWhile_suffix _
  obtain ⟨t, ht⟩ := h
  refine ⟨t.reverse, ?_⟩
  have := congrArg List.reverse ht
  simpa using this

theorem dropWhile_dropTrailingSpaces {l : List Char}
    (hl : l.dropWhile (· = ' ') = l) :
    (dropTrailingSpaces l).dropWhile (· = ' ') = dropTrailingSpaces l :=
  dropWhile_eq_self_of_front (dropTrailingSpaces_front l) hl

theorem trimChars_idem (l : List Char) : trimChars (trimChars l) = trimChars l := by
  unfold trimChars
  rw [dropWhile_dropTrailingSpaces (dropWhile_idem _ l), dropTrailingSpaces_idem]

theorem trimChars_cons_space (l : List Char) : trimChars (' ' :: l) = trimChars l := by
  unfold trimChars
  simp [List.dropWhile_cons]

theorem dropTrailingSpaces_trimChars (l : List Char) :
    dropTrailingSpaces (trimChars l) = trimChars l := by
  unfold trimChars
  rw [dropTrailingSpaces_idem]

theorem dropWhile_fix_head {p : Char → Bool} {d : Char} {ds : List Char}
    (h : (d :: ds).dropWhile p = d :: ds) : p d = false := by
  by_contra hpa
  rw [Bool.not_eq_false] at hpa
  rw [List.dropWhile_cons, if_pos hpa] at h
  have hlen := congrArg List.length h
  have hle := (List.dropWhile_sublist (l := ds) (p := p)).length_le
  rw [List.length_cons] at hlen
  omega

theorem dropTrailingSpaces_append_of_last {a r : List Char} (hne : r ≠ [])
    (hr : dropTrailingSpaces r = r) : dropTrailingSpaces (a ++ r) = a ++ r := by
  have hrev : r.reverse.dropWhile (· = ' ') = r.reverse := by
    have h1 := congrArg List.reverse hr
    unfold dropTrailingSpaces at h1
    rwa [List.reverse_reverse] at h1
  obtain ⟨e, es, hy⟩ : ∃ e es, r.reverse = e :: es := by
    cases hyr : r.reverse with
    | nil => exact absurd (by simpa using congrArg List.reverse hyr) hne
    | cons e es => exact ⟨e, es, rfl⟩
  rw [hy] at hrev
  have he := dropWhile_fix_head hrev
  unfold dropTrailingSpaces
  rw [List.reverse_append, hy, List.cons_append,
    List.dropWhile_cons_of_neg (by simp [he]), ← List.cons_append, ← hy,
    ← List.reverse_append, List.reverse_reverse]

theorem dropTrailingSpaces_append_space (a : List Char) :
    dropTrailingSpaces (a ++ [' ']) = dropTrailingSpaces a := by
  unfold dropTrailingSpaces
  rw [List.reverse_append]
  simp [List.dropWhile_cons]

theorem dropTrailingSpaces_append_close (a : List Char) :
    dropTrailingSpaces (a ++ ['}']) = a ++ ['}'] := by
  unfold dropTrailingSpaces
  rw [List.reverse_append]
  simp only [List.reverse_cons, List.reverse_nil, List.nil_append, List.singleton_append]
  rw [List.dropWhile_cons_of_neg (by decide)]
  simp

theorem trimChars_sel_append (mid r : List Char) (hr : dropTrailingSpaces r = r) :
    trimChars (('{' :: (mid ++ ['}'])) ++ ' ' :: r) =
      if r = [] then '{' :: (mid ++ ['}']) else ('{' :: (mid ++ ['}'])) ++ ' ' :: r := by
  unfold trimChars
  rw [List.cons_append, List.dropWhile_cons_of_neg (by decide), ← List.cons_append]
  by_cases hne : r = []
  · subst hne
    rw [if_pos rfl]
    have h1 : ('{' :: (mid ++ ['}'])) ++ ' ' :: ([] : List Char) =
        ('{' :: (mid ++ ['}'])) ++ [' '] := rfl
    rw [h1, dropTrailingSpaces_append_space]
    have h2 : '{' :: (mid ++ ['}']) = ('{' :: mid) ++ ['}'] := by
      rw [List.cons_append]
    rw [h2, dropTrailingSpaces_append_close]
  · rw [if_neg hne]
    have h1 : ('{' :: (mid ++ ['}'])) ++ ' ' :: r =
        (('{' :: (mid ++ ['}'])) ++ [' ']) ++ r := by
      rw [List.append_assoc]
      rfl
    rw [h1, dropTrailingSpaces_append_of_last hne hr, ← h1]

theorem findSelector_dropWhile_none {l : List Char} (h : findSelector l = none) :
    findSelector (l.dropWhile (· = ' ')) = none := by
  induction l with
  | nil => exact h
  | cons c cs ih =>
    rw [List.dropWhile_cons]
    by_cases hc : c = ' '
    · rw [if_pos (by simp [hc])]
      apply ih
      rw [findSelector, if_neg (by simp [hc])] at h
      cases hcs : findSelector cs with
      | none => rfl
      | some pr => rw [hcs] at h; exact absurd h (by simp)
    · rw [if_neg (by simp [hc])]
      exact h

theorem findSelector_dropTrailing_none {l : List Char} (h : findSelector l = none) :
    findSelector (dropTrailingSpaces l) = none := by
  have hdec : dropTrailingSpaces l ++ (l.reverse.takeWhile (· = ' ')).reverse = l := by
    unfold dropTrailingSpaces
    rw [← List.reverse_append, List.takeWhile_append_dropWhile, List.reverse_reverse]
  cases hfd : findSelector (dropTrailingSpaces l) with
  | none => rfl
  | some pr =>
    obtain ⟨pre, sel, rest⟩ := pr
    have := findSelector_append hfd (l.reverse.takeWhile (· = ' ')).reverse
    rw [hdec] at this
    rw [this] at h
    exact absurd h (by simp)

theorem findSelector_trimChars_none {l : List Char} (h : findSelector l = none) :
    findSelector (trimChars l) = none := by
  unfold trimChars
  exact findSelector_dropTrailing_none (findSelector_dropWhile_none h)

theorem parseQueryChars_roundtrip (e : List Char) :
    parseQueryChars (formatQueryChars (parseQueryChars e).1 (parseQueryChars e).2) =
      parseQueryChars e := by
  cases hf : findSelector e with
  | none =>
    have hpe : parseQueryChars e = ([], trimChars e) := by
      unfold parseQueryChars; rw [hf]
    rw [hpe]
    unfold formatQueryChars
    have h1 : trimChars (([] : List Char) ++ ' ' :: trimChars e) = trimChars e := by
      rw [List.nil_append, trimChars_cons_space, trimChars_idem]
    rw [h1]
    unfold parseQueryChars
    rw [findSelector_trimChars_none hf, trimChars_idem]
  | some pr =>
    obtain ⟨pre, sel, rest⟩ := pr
    have hpe : parseQueryChars e = (sel, trimChars (pre ++ rest)) := by
      unfold parseQueryChars; rw [hf]
    obtain ⟨s, hsel, hspan⟩ := findSelector_sel hf
    have hs0 : spanUntilClose s = some (s, []) := by
      have h0 := hspan []
      rwa [List.append_nil] at h0
    obtain ⟨mid, hmid⟩ := spanUntilClose_shape hs0
    rw [hpe]
    unfold formatQueryChars
    have hr : dropTrailingSpaces (trimChars (pre ++ rest)) = trimChars (pre ++ rest) :=
      dropTrailingSpaces_trimChars _
    rw [hsel, hmid]
    rw [trimChars_sel_append mid (trimChars (pre ++ rest)) hr]
    by_cases hrn : trimChars (pre ++ rest) = []
    · rw [if_pos hrn]
      unfold parseQueryChars
      have hsp : spanUntilClose (mid ++ ['}']) = some (mid ++ ['}'], []) := by
        have h0 := hspan []
        rw [List.append_nil, hmid] at h0
        exact h0
      have hfind : findSelector ('{' :: (mid ++ ['}'])) =
          some ([], '{' :: (mid ++ ['}']), []) := by
        rw [findSelector, if_pos rfl, hsp]
      rw [hfind, hrn]
      simp [trimChars, dropTrailingSpaces]
    · rw [if_neg hrn]
      unfold parseQueryChars
      have hsp : spanUntilClose ((mid ++ ['}']) ++ ' ' :: trimChars (pre ++ rest)) =
          some (mid ++ ['}'], ' ' :: trimChars (pre ++ rest)) := by
        have h0 := hspan (' ' :: trimChars (pre ++ rest))
        rw [hmid] at h0
        exact h0
      have hfind : findSelector (('{' :: (mid ++ ['}'])) ++ ' ' :: trimChars (pre ++ rest)) =
          some ([], '{' :: (mid ++ ['}']), ' ' :: trimChars (pre ++ rest)) := by
        rw [List.cons_append, findSelector, if_pos rfl, hsp]
      rw [hfind]
      show ('{' :: (mid ++ ['}']), trimChars ([] ++ ' ' :: trimChars (pre ++ rest))) =
        ('{' :: (mid ++ ['}']), trimChars (pre ++ rest))
      rw [List.nil_append, trimChars_cons_space, trimChars_idem]

/-! Lemmas about batch execution. -/

theorem promiseAll_error_of_mem {α : Type} {rs : List (Except ErrResponse α)}
    {e : ErrResponse} (h : .error e ∈ rs) : ∃ u, promiseAll rs = .error u := by
  induction rs with
  | nil => simp at h
  | cons r rs ih =>
    cases r with
    | error u => exact ⟨u, rfl⟩
    | ok a =>
      rcases List.mem_cons.mp h with h1 | h2
      · exact absurd h1 (by simp)
      · obtain ⟨u, hu⟩ := ih h2
        refine ⟨u, ?_⟩
        show (promiseAll rs).map (a :: ·) = .error u
        rw [hu]
        rfl

/-! Concrete fixtures used by the witnesses. -/

/-- A concrete datasource instance (cap 2, identity interpolation). -/
def ds0 : LokiDatasource :=
  { maxLines := 2, templateReplace := id, addLabelToSelector := fun s _ _ => s }

/-- A visible target with a selector and a regexp term. -/
def tgt1 : LokiQuery := { refId := "A", expr := "\x7bjob=\"a\"\x7d err" }

/-- A hidden target. -/
def tgtHidden : LokiQuery := { refId := "B", expr := "\x7bjob=\"b\"\x7d", hide := true }

/-- A target with an empty expression. -/
def tgtEmpty : LokiQuery := { refId := "C", expr := "" }

/-- A concrete time range. -/
def range0 : TimeRange := { fromTime := 0, toTime := 1 }

/-- Options with one eligible target. -/
def opts1 : DataQueryOptions := { targets := [tgt1], range := range0 }

/-- Options whose targets are all excluded (empty expr or hidden). -/
def optsExcluded : DataQueryOptions := { targets := [tgtEmpty, tgtHidden], range := range0 }

/-- Options with two eligible targets. -/
def opts2 : DataQueryOptions :=
  { targets := [tgt1, { refId := "B", expr := "\x7bjob=\"b\"\x7d" }], range := range0 }

/-- A concrete backend stream. -/
def stream1 : LogsStream :=
  { labels := [("job", "a")], entries := [{ ts := "t1", line := "l1" }], search := "" }

/-- A stream with three entries (exceeds the cap of `ds0`). -/
def stream3 : LogsStream :=
  { labels := [], entries := [{ ts := "3", line := "a" }, { ts := "1", line := "b" },
      { ts := "2", line := "c" }], search := "" }

/-- A concrete successful per-target response. -/
def resOk : QueryResult := { data := some { streams := some [stream1] } }

/-- A concrete transport rejection with status 500. -/
def err500 : ErrResponse := { status := some 500, statusText := some "Internal Error" }

/-- A concrete prepared parameter set. -/
def qp1 : QueryParams :=
  { direction := "BACKWARD", limit := 2, regexp := "err", query := "x",
    startTs := 0, endTs := 1 }

/-! Helper: parse-format-parse round trip at the String level. -/

theorem parseQuery_format_roundtrip (s : String) :
    parseQuery (formatQuery (parseQuery s).query (parseQuery s).regexp) = parseQuery s := by
  have key := parseQueryChars_roundtrip s.data
  show ParsedQuery.mk
      (String.mk (parseQueryChars (formatQueryChars (parseQueryChars s.data).1
        (parseQueryChars s.data).2)).1)
      (String.mk (parseQueryChars (formatQueryChars (parseQueryChars s.data).1
        (parseQueryChars s.data).2)).2) =
    ParsedQuery.mk (String.mk (parseQueryChars s.data).1)
      (String.mk (parseQueryChars s.data).2)
  rw [key]

/-! Claim theorems. -/

/-- C10: modifyQuery returns a fresh query value; every field other than
`expr` equals the corresponding field of the input (the input itself is
untouched, which the pure embedding makes inherent). -/
theorem modifyQuery_pure_frame (ds : LokiDatasource) (q : LokiQuery)
    (action : LokiAction) :
    (ds.modifyQuery q action).refId = q.refId ∧
    (ds.modifyQuery q action).hide = q.hide ∧
    (ds.modifyQuery q action).format = q.format :=
  ⟨rfl, rfl, rfl⟩

/-- C1 (counterexample): on a successful health-check response whose label
values list is empty, the returned status IS the error status "error", so
it is not a warning status distinct from an error status as claimed. -/
theorem testDatasource_emptyLabels_status_error_concrete :
    (ds0.testDatasource (.ok (some { data := some { values := some [] } }))).status
      = "error" := rfl

/-- C1 (amended): on a successful health-check response whose label values
list is empty, testDatasource returns the error status "error" with a
message saying no labels were received. -/
theorem testDatasource_emptyLabels_error_message (ds : LokiDatasource)
    (res : Option LabelResponse) (r : LabelResponse) (d : LabelBody)
    (hres : res = some r) (hd : r.data = some d) (hv : d.values = some []) :
    (ds.testDatasource (.ok res)).status = "error" ∧
    "no labels received".data <:+: (ds.testDatasource (.ok res)).message.data := by
  have hlf : labelsFound res = false := by
    simp [hres, labelsFound, hd, hv]
  have hts : ds.testDatasource (.ok res) =
      { status := "error",
        message := "Data source connected, but no labels received. Verify that Loki and Promtail is configured properly." } := by
    show (if labelsFound res = true
      then TestResult.mk "success" "Data source connected and labels found."
      else TestResult.mk "error" "Data source connected, but no labels received. Verify that Loki and Promtail is configured properly.") =
      TestResult.mk "error" "Data source connected, but no labels received. Verify that Loki and Promtail is configured properly."

    rw [hlf]
    simp
  rw [hts]
  exact ⟨rfl, ⟨"Data source connected, but ".data,
    ". Verify that Loki and Promtail is configured properly.".data, by decide⟩⟩

/-- C1 (witness for the amended theorem). -/
theorem testDatasource_emptyLabels_error_message_witness :
    (ds0.testDatasource (.ok (some { data := some { values := some [] } }))).status = "error" ∧
    "no labels received".data <:+:
      (ds0.testDatasource (.ok (some { data := some { values := some [] } }))).message.data :=
  testDatasource_emptyLabels_error_message ds0
    (some { data := some { values := some [] } })
    { data := some { values := some [] } } { values := some [] } rfl rfl rfl

/-- C5: getTime converts a time value X to ceil(X * 10^6) regardless of
the roundUp flag, and prepareQueryTarget applies this same ceiling rule to
the range's from-value (start bound) and to-value (end bound). -/
theorem getTime_ceil_both_bounds (ds : LokiDatasource) (now x : ℚ) (b : Bool)
    (target : LokiQuery) (options : DataQueryOptions)
    (hs : options.streaming = false) :
    ds.getTime x b = ⌈x * 1000000⌉ ∧
    (ds.prepareQueryTarget now target options).startTs =
      ⌈options.range.fromTime * 1000000⌉ ∧
    (ds.prepareQueryTarget now target options).endTs =
      ⌈options.range.toTime * 1000000⌉ := by
  refine ⟨rfl, ?_, ?_⟩ <;>
    simp [LokiDatasource.prepareQueryTarget, LokiDatasource.getTime, hs]

/-- C5 (witness). -/
theorem getTime_ceil_both_bounds_witness :
    ds0.getTime (3 / 2) true = ⌈(3 / 2 : ℚ) * 1000000⌉ ∧
    (ds0.prepareQueryTarget 0 tgt1 opts1).startTs = ⌈opts1.range.fromTime * 1000000⌉ ∧
    (ds0.prepareQueryTarget 0 tgt1 opts1).endTs = ⌈opts1.range.toTime * 1000000⌉ :=
  getTime_ceil_both_bounds ds0 0 (3 / 2) true tgt1 opts1 rfl

/-- C9: on any transport failure the health check returns the error status,
and its best-effort message contains the status text (when present and
non-empty) and the numeric status code (when present and non-zero),
assembled with the literal separators of the source. -/
theorem testDatasource_error_message_assembly (ds : LokiDatasource)
    (err : ErrResponse) :
    (ds.testDatasource (.error err)).status = "error" ∧
    (∀ t, err.statusText = some t → t ≠ "" →
      t.data <:+: (ds.testDatasource (.error err)).message.data) ∧
    (∀ n, err.status = some n → n ≠ 0 →
      (toString n).data <:+: (ds.testDatasource (.error err)).message.data) := by
  refine ⟨rfl, ?_, ?_⟩
  · intro t ht hne
    show t.data <:+:
      ("Loki: " ++ errTextPart err ++ errStatusPart err ++ errDataPart err).data
    have htp : errTextPart err = t := by
      unfold errTextPart
      rw [ht]
      show (if t = "" then "Cannot connect to Loki" else t) = t
      rw [if_neg hne]
    rw [htp]
    refine ⟨"Loki: ".data, (errStatusPart err ++ errDataPart err).data, ?_⟩
    simp [String.data_append]
  · intro n hn hne
    show (toString n).data <:+:
      ("Loki: " ++ errTextPart err ++ errStatusPart err ++ errDataPart err).data
    have hsp : errStatusPart err = ". " ++ toString n := by
      unfold errStatusPart
      rw [hn]
      show (if n = 0 then "" else ". " ++ toString n) = ". " ++ toString n
      rw [if_neg hne]
    rw [hsp]
    refine ⟨("Loki: " ++ errTextPart err ++ ". ").data, (errDataPart err).data, ?_⟩
    simp [String.data_append]

/-- C9 (witness): a rejection with status 500 and statusText Internal
Error yields a message containing both. -/
theorem testDatasource_error_message_assembly_witness :
    (ds0.testDatasource (.error err500)).status = "error" ∧
    "Internal Error".data <:+: (ds0.testDatasource (.error err500)).message.data ∧
    "500".data <:+: (ds0.testDatasource (.error err500)).message.data :=
  ⟨(testDatasource_error_message_assembly ds0 err500).1,
   (testDatasource_error_message_assembly ds0 err500).2.1 "Internal Error" rfl (by decide),
   (testDatasource_error_message_assembly ds0 err500).2.2 500 rfl (by decide)⟩

/-- C3: both query and stream exclude every target with an empty expr or a
set hide flag before building parameters, and when every target is
excluded both return an empty result (resolved empty data for query, the
empty observable for stream) without preparing any request. -/
theorem query_stream_exclude_hidden_empty (ds : LokiDatasource) (now : ℚ)
    (options : DataQueryOptions)
    (responses : List (Except ErrResponse QueryResult)) :
    (∀ t ∈ options.targets.filter eligibleTarget, t.expr ≠ "" ∧ t.hide = false) ∧
    ((∀ t ∈ options.targets, t.expr = "" ∨ t.hide = true) →
      ds.queryTargets now options = [] ∧
      ds.query now options responses = .ok { data := .streams [] } ∧
      ds.streamTargets options = [] ∧
      ds.stream options = .emptyObs) := by
  constructor
  · intro t ht
    have helig := List.of_mem_filter ht
    simp only [eligibleTarget, Bool.and_eq_true, Bool.not_eq_true', decide_eq_true_eq] at helig
    exact ⟨by simpa using helig.1, helig.2⟩
  · intro hall
    have hfil : options.targets.filter eligibleTarget = [] := by
      rw [List.filter_eq_nil_iff]
      intro t ht
      rcases hall t ht with h1 | h2
      · simp [eligibleTarget, h1]
      · simp [eligibleTarget, h2]
    have hqt : ds.queryTargets now options = [] := by
      unfold LokiDatasource.queryTargets
      rw [hfil]
      rfl
    have hst : ds.streamTargets options = [] := by
      unfold LokiDatasource.streamTargets
      rw [hfil]
      rfl
    refine ⟨hqt, ?_, hst, ?_⟩
    · unfold LokiDatasource.query
      rw [hqt]
      rfl
    · unfold LokiDatasource.stream
      rw [hst]
      rfl

/-- C3 (witness): concrete options whose two targets are excluded. -/
theorem query_stream_exclude_hidden_empty_witness :
    ds0.queryTargets 0 optsExcluded = [] ∧
    ds0.query 0 optsExcluded [] = .ok { data := .streams [] } ∧
    ds0.streamTargets optsExcluded = [] ∧
    ds0.stream optsExcluded = .emptyObs :=
  (query_stream_exclude_hidden_empty ds0 0 optsExcluded []).2 (by decide)

/-- C4: a batch call with at least two eligible targets rejects as a whole
as soon as any single per-target request rejects; the rejected value
carries no partial combined data. -/
theorem query_rejects_on_single_failure (ds : LokiDatasource) (now : ℚ)
    (options : DataQueryOptions)
    (responses : List (Except ErrResponse QueryResult)) (e : ErrResponse)
    (h2 : 2 ≤ (options.targets.filter eligibleTarget).length)
    (hmem : .error e ∈ responses) :
    ∃ u, ds.query now options responses = .error u := by
  obtain ⟨u, hu⟩ := promiseAll_error_of_mem hmem
  have hne : (ds.queryTargets now options).isEmpty = false := by
    unfold LokiDatasource.queryTargets
    rcases hq : options.targets.filter eligibleTarget with _ | ⟨a, l⟩
    · rw [hq] at h2
      simp at h2
    · rfl
  refine ⟨u, ?_⟩
  simp only [LokiDatasource.query]
  rw [hu, hne]
  simp

/-- C4 (witness): two eligible targets, second request rejected. -/
theorem query_rejects_on_single_failure_witness :
    ∃ u, ds0.query 0 opts2 [.ok resOk, .error err500] = .error u :=
  query_rejects_on_single_failure ds0 0 opts2 [.ok resOk, .error err500] err500
    (by decide) (by simp)

/-- C2: with all requests resolved and at least one eligible target, the
batch output shape is decided solely by the first target's format flag:
time_series yields the derived numeric series of the merged combined
streams; any other value yields the raw combined stream list unmodified. -/
theorem query_output_shape_first_target_format (ds : LokiDatasource) (now : ℚ)
    (options : DataQueryOptions)
    (responses : List (Except ErrResponse QueryResult)) (results : List QueryResult)
    (hok : promiseAll responses = .ok results)
    (hne : ds.queryTargets now options ≠ []) :
    (firstFormat options = some "time_series" →
      ds.query now options responses = .ok { data := .series (makeSeriesForLogs
        (mergeStreamsToLogs (collectStreams results (ds.queryTargets now options))
          ds.maxLines).rows options.intervalMs) }) ∧
    (firstFormat options ≠ some "time_series" →
      ds.query now options responses =
        .ok { data := .streams (collectStreams results (ds.queryTargets now options)) }) := by
  have hem : (ds.queryTargets now options).isEmpty = false := by
    rcases hq : ds.queryTargets now options with _ | ⟨a, l⟩
    · exact absurd hq hne
    · rfl
  constructor <;> intro hfmt
  · simp only [LokiDatasource.query]
    rw [hok, hem]
    simp [hfmt]
  · simp only [LokiDatasource.query]
    rw [hok, hem]
    simp [hfmt]

/-- C2 (witness): one eligible target with no format flag takes the raw
stream-list branch. -/
theorem query_output_shape_first_target_format_witness :
    ds0.query 0 opts1 [.ok resOk] =
      .ok { data := .streams (collectStreams [resOk] (ds0.queryTargets 0 opts1)) } :=
  (query_output_shape_first_target_format ds0 0 opts1 [.ok resOk] [resOk] rfl
    (by simp [LokiDatasource.queryTargets, opts1, tgt1, eligibleTarget])).2 (by decide)

/-- C6: with an unrecognized action type, modifyQuery leaves the query
expression semantically unchanged (same parsed selector and regexp, no
error), and getHighlighterExpression on the result returns the original
query's regex filter term unchanged (parse, format, re-parse). -/
theorem modifyQuery_unknown_action_roundtrip (ds : LokiDatasource)
    (q : LokiQuery) (action : LokiAction) (h : action.type ≠ "ADD_FILTER") :
    parseQuery (ds.modifyQuery q action).expr = parseQuery q.expr ∧
    getHighlighterExpression (ds.modifyQuery q action) = getHighlighterExpression q := by
  have hexpr : (ds.modifyQuery q action).expr =
      formatQuery (parseQuery q.expr).query (parseQuery q.expr).regexp := by
    simp only [LokiDatasource.modifyQuery]
    rw [if_neg h]
  refine ⟨?_, ?_⟩
  · rw [hexpr]
    exact parseQuery_format_roundtrip q.expr
  · unfold getHighlighterExpression
    rw [hexpr, parseQuery_format_roundtrip]

/-- C6 (witness). -/
theorem modifyQuery_unknown_action_roundtrip_witness :
    parseQuery (ds0.modifyQuery tgt1 { type := "UNKNOWN" }).expr = parseQuery tgt1.expr ∧
    getHighlighterExpression (ds0.modifyQuery tgt1 { type := "UNKNOWN" }) =
      getHighlighterExpression tgt1 :=
  modifyQuery_unknown_action_roundtrip ds0 tgt1 { type := "UNKNOWN" } (by decide)

/-- C7: when the input streams hold more raw rows than the configured
max-lines cap, the merged log model of mergeStreamsToLogs (called with the
configured cap, as mergeStreams and the time_series branch of query do)
contains exactly max-lines rows. -/
theorem mergeStreams_maxLines_cap (ds : LokiDatasource)
    (streams : List LogsStream) (intervalMs : ℚ)
    (h : ds.maxLines < (streams.flatMap streamRows).length) :
    (mergeStreamsToLogs streams ds.maxLines).rows.length = ds.maxLines ∧
    (ds.mergeStreams streams intervalMs).rows.length = ds.maxLines := by
  have h1 : (mergeStreamsToLogs streams ds.maxLines).rows.length = ds.maxLines := by
    simp only [mergeStreamsToLogs]
    rw [List.length_take, List.length_mergeSort]
    omega
  refine ⟨h1, ?_⟩
  simpa [LokiDatasource.mergeStreams] using h1

/-- C7 (witness): three rows against the cap of two. -/
theorem mergeStreams_maxLines_cap_witness :
    (mergeStreamsToLogs [stream3] ds0.maxLines).rows.length = ds0.maxLines ∧
    (ds0.mergeStreams [stream3] 0).rows.length = ds0.maxLines :=
  mergeStreams_maxLines_cap ds0 [stream3] 0 (by decide)

/-- C8: the combined stream list pairs the i-th response with the i-th
prepared target (request submission order) and tags every stream of that
response with exactly that target's regexp term. -/
theorem collectStreams_index_aligned_tagging
    {results : List QueryResult} {qts : List QueryParams}
    (h : results.length = qts.length) :
    collectStreams results qts =
      (results.zip qts).flatMap fun p =>
        (respStreams p.1).map fun s => { s with search := p.2.regexp } := by
  induction results generalizing qts with
  | nil => cases qts <;> simp [collectStreams]
  | cons r rs ih =>
    cases qts with
    | nil => simp at h
    | cons q qs =>
      have hhead : (match r.data with
          | none => ([] : List LogsStream)
          | some body => (body.streams.getD []).map fun s => { s with search := q.regexp })
          = (respStreams r).map fun s => { s with search := q.regexp } := by
        unfold respStreams
        cases r.data <;> simp
      have hlen : rs.length = qs.length := by simpa using h
      simp only [collectStreams, List.zip_cons_cons, List.flatMap_cons]
      rw [hhead, ih hlen]

/-- C8 (witness). -/
theorem collectStreams_index_aligned_tagging_witness :
    collectStreams [resOk] [qp1] =
      ([resOk].zip [qp1]).flatMap fun p =>
        (respStreams p.1).map fun s => { s with search := p.2.regexp } :=
  collectStreams_index_aligned_tagging rfl
